import Mathlib

/-!
Verification of the core decision logic of the `lambda` deployment scripts:
the weighted-alias routing model of `deploy_function.py` and the
content-addressed conditional-publish protocol of `update_code.py`.

Python floats never leave `[0, 1]`-style fractional arithmetic here, so
weights are embedded as exact rationals (`ℚ`); Python `Optional[str]`
fields are `Option String`.  At runtime Python lets `None` flow into
`primary_version` (e.g. `Alias(primary_version=self.secondary_version)`
when `secondary_version is None`), so both version fields are `Option`.
-/

/-- The `Alias` frozen dataclass of `deploy_function.py`. -/
structure Alias where
  primary_version : Option String
  secondary_version : Option String := none
  secondary_weight : ℚ := 0
deriving DecidableEq, Repr

/-- `Alias.get_weight`: `secondary_weight` for the secondary version,
`1 - secondary_weight` for the primary version, `0` otherwise (checked in
that order, as in the source). -/
def Alias.get_weight (a : Alias) (version : String) : ℚ :=
  if some version = a.secondary_version then a.secondary_weight
  else if some version = a.primary_version then 1 - a.secondary_weight
  else 0

/-- `Alias.normalized`: collapse weight `≤ 0` onto the primary version and
weight `≥ 1` onto the secondary version. -/
def Alias.normalized (a : Alias) : Alias :=
  if a.secondary_weight ≤ 0 then { primary_version := a.primary_version }
  else if 1 ≤ a.secondary_weight then { primary_version := a.secondary_version }
  else a

/-- `Alias.versions`: the generator yielding the primary version and, when
present, the secondary version. -/
def Alias.versions (a : Alias) : List (Option String) :=
  a.primary_version :: (match a.secondary_version with
    | some s => [some s]
    | none => [])

/-- `input_percent`: the prompt loop accepts a number in `[0, 100]` and
returns it divided by `100`; out-of-range or unparsable input is retried,
modelled as `none`. -/
def input_percent (value : ℚ) : Option ℚ :=
  if value < 0 ∨ 100 < value then none else some (value / 100)

/-- `Alias.from_versions` applied to a single version. -/
def Alias.from_versions1 (v : String) : Alias :=
  { primary_version := some v }

/-- `Alias.from_versions` applied to two versions: `weightInput` is the
fraction (from `input_percent`) of traffic kept on the first version, the
secondary weight is `1 - weightInput`, and the result is normalized. -/
def Alias.from_versions2 (v1 v2 : String) (weightInput : ℚ) : Alias :=
  (Alias.mk (some v1) (some v2) (1 - weightInput)).normalized

/-- The spec's `SingleVersion(v)` state: all traffic on one version.  As a
record this is exactly what `Alias.normalized` produces when it collapses,
i.e. `Alias(primary_version=v)` with the dataclass defaults. -/
def singleVersion (v : Option String) : Alias :=
  { primary_version := v }

/-! ### Python string primitives used by the error handling -/

/-- Python `str.lower` (the strings compared here are ASCII). -/
def str_lower (s : String) : String :=
  ⟨s.data.map Char.toLower⟩

def listPrefixOf : List Char → List Char → Bool
  | [], _ => true
  | _ :: _, [] => false
  | a :: as, b :: bs => a == b && listPrefixOf as bs

def listInfixOf (needle : List Char) : List Char → Bool
  | [] => listPrefixOf needle []
  | b :: bs => listPrefixOf needle (b :: bs) || listInfixOf needle bs

/-- Python's substring test `needle in hay`. -/
def str_in (needle hay : String) : Bool :=
  listInfixOf needle.data hay.data

/-! ### Remote alias store -/

/-- Failures surfaced by the remote function/alias store (`boto3` lambda
client): `ResourceNotFoundException`, `PreconditionFailedException` with
its response message, or any other client/transport error. -/
inductive LambdaError where
  | resourceNotFound
  | preconditionFailed (message : String)
  | other (tag : String)
deriving DecidableEq, Repr

/-- A remote alias record as returned by `get_alias`/`update_alias`:
`FunctionVersion`, `RoutingConfig.AdditionalVersionWeights` (in iteration
order) and `RevisionId`. -/
structure AliasDescription where
  functionVersion : String
  additionalVersionWeights : List (String × ℚ) := []
  revisionId : String
deriving DecidableEq, Repr

/-- `Alias.from_description`: `None` for the mutable `$LATEST` target,
otherwise an `Alias` taking at most the first additional-weight pair
(defaulting to `(None, 0)`). -/
def Alias.from_description (d : AliasDescription) : Option Alias :=
  if d.functionVersion = "$LATEST" then none
  else
    match d.additionalVersionWeights with
    | [] => some { primary_version := some d.functionVersion }
    | (v, w) :: _ => some ⟨some d.functionVersion, some v, w⟩

/-- `get_alias`, as a function of the remote read's outcome: a
`ResourceNotFoundException` becomes `none` (no manageable alias), any
other failure propagates, and a successful read pairs the parsed alias
with the record's `RevisionId`. -/
def get_alias (fetched : Except LambdaError AliasDescription) :
    Except LambdaError (Option (Option Alias × String)) :=
  match fetched with
  | .error .resourceNotFound => .ok none
  | .error e => .error e
  | .ok d => .ok (some (Alias.from_description d, d.revisionId))

/-- A published-version record from `list_versions_by_function`: its
`Version` string and `Description`. -/
structure VersionRec where
  version : String
  description : String := ""
deriving DecidableEq, Repr

/-- `get_versions`, as a function of the remote paginated listing
(pages flattened in order): drop the `$LATEST` pseudo-version and key the
rest by version string; a listing failure propagates. -/
def get_versions (listing : Except LambdaError (List VersionRec))
    : Except LambdaError (List (String × VersionRec)) :=
  match listing with
  | .error e => .error e
  | .ok vs =>
    .ok ((vs.filter (fun v => v.version ≠ "$LATEST")).map
      (fun v => (v.version, v)))

/-- `set_alias`, as a function of the remote `update_alias` outcome: a
`PreconditionFailedException` whose lowercased message contains
`"revision id"` is swallowed into a `None` (conflict) result, any other
failure re-raises, and a success is re-parsed with
`Alias.from_description`. -/
def set_alias (updateResult : Except LambdaError AliasDescription) :
    Except LambdaError (Option Alias) :=
  match updateResult with
  | .error (.preconditionFailed msg) =>
    if str_in "revision id" (str_lower msg) then .ok none
    else .error (.preconditionFailed msg)
  | .error e => .error e
  | .ok result => .ok (Alias.from_description result)

/-- Modelled from the spec: the remote alias store's `updateAlias` is a
compare-and-swap guarded by the expected revision id (`updateAlias(...) →
committedDescription | PreconditionFailed`); on a revision mismatch it
fails with a precondition failure naming the revision id and leaves the
record unchanged.  The store itself is not part of this repository.  The
request is built exactly as `set_alias` builds it: `FunctionVersion` from
the primary version, `AdditionalVersionWeights` holding the secondary
pair when present. -/
def remote_update_alias (st : AliasDescription) (proposed : Alias)
    (newRevisionId expectedRevisionId : String) :
    AliasDescription × Except LambdaError AliasDescription :=
  if expectedRevisionId = st.revisionId then
    match proposed.primary_version with
    | none => (st, .error (.other "ValidationException"))
    | some v =>
      let st' : AliasDescription :=
        { functionVersion := v
          additionalVersionWeights :=
            match proposed.secondary_version with
            | some s => [(s, proposed.secondary_weight)]
            | none => []
          revisionId := newRevisionId }
      (st', .ok st')
  else (st, .error (.preconditionFailed
    "The Revision Id provided does not match the latest Revision Id."))

/-- One full guarded commit: run the remote compare-and-swap once and
feed its outcome to `set_alias`; returns the remote record afterwards and
the commit outcome. -/
def commit_alias (st : AliasDescription) (proposed : Alias)
    (newRevisionId expectedRevisionId : String) :
    AliasDescription × Except LambdaError (Option Alias) :=
  let r := remote_update_alias st proposed newRevisionId expectedRevisionId
  (r.1, set_alias r.2)

/-! ### Version ordering for the selection list (`main`) -/

/-- Python `int` on the catalog's canonical (decimal-digit) version
strings. -/
def strToNat (cs : List Char) : ℕ :=
  cs.foldl (fun n c => 10 * n + (c.toNat - 48)) 0

/-- The sort key of `main`'s selection list:
`(value[1] in alias_versions, int(value[1]))`, with Python's
`False < True` encoded as `0 < 1`. -/
def selection_key (aliasVersions : List (Option String)) (v : String) :
    ℕ × ℕ :=
  ((if some v ∈ aliasVersions then 1 else 0), strToNat v.data)

/-- Descending lexicographic comparison on sort keys: `k1` may precede
`k2` in the reverse-sorted output. -/
def keyLE (k1 k2 : ℕ × ℕ) : Bool :=
  k2.1 < k1.1 || (k1.1 == k2.1 && k2.2 ≤ k1.2)

/-- The order in which `main` shows versions: Python's stable
`sorted(..., key=(in_alias, int(version)), reverse=True)` over the
catalog's versions, embedded as a stable merge sort under the descending
key comparison. -/
def orderForSelection (catalog : List String)
    (aliasVersions : List (Option String)) : List String :=
  catalog.mergeSort
    (fun a b => keyLE (selection_key aliasVersions a)
      (selection_key aliasVersions b))

/-! ### Artifact digest and conditional publish (`update_code.py`) -/

/-- One base64 digit of the URL-safe alphabet (`A–Z a–z 0–9 - _`). -/
def b64Char (n : ℕ) : Char :=
  if n < 26 then Char.ofNat (65 + n)
  else if n < 52 then Char.ofNat (97 + (n - 26))
  else if n < 62 then Char.ofNat (48 + (n - 52))
  else if n = 62 then '-' else '_'

/-- Standard base64 grouping of a byte sequence, with `=` padding. -/
def b64EncodeGroups : List ℕ → List Char
  | b1 :: b2 :: b3 :: rest =>
    let n := b1 * 65536 + b2 * 256 + b3
    b64Char (n / 262144) :: b64Char (n / 4096 % 64) :: b64Char (n / 64 % 64)
      :: b64Char (n % 64) :: b64EncodeGroups rest
  | [b1, b2] =>
    let n := b1 * 65536 + b2 * 256
    [b64Char (n / 262144), b64Char (n / 4096 % 64), b64Char (n / 64 % 64), '=']
  | [b1] =>
    let n := b1 * 65536
    [b64Char (n / 262144), b64Char (n / 4096 % 64), '=', '=']
  | [] => []

/-- Python `base64.urlsafe_b64encode`. -/
def urlsafe_b64encode (bs : List ℕ) : String :=
  ⟨b64EncodeGroups bs⟩

/-- `bytes.rstrip(b'=')`: drop the trailing padding. -/
def rstrip_eq (s : String) : String :=
  ⟨(s.data.reverse.dropWhile (· == '=')).reverse⟩

/-- `compute_digest`: URL-safe unpadded base64 of the payload's hash.
`hashlib.sha256` is an external primitive outside this repository, so the
raw hash is a parameter `sha`; everything proved below holds for the real
hash in particular. -/
def compute_digest (sha : List ℕ → List ℕ) (data : List ℕ) : String :=
  rstrip_eq (urlsafe_b64encode (sha data))

/-- A `boto3` S3 client error carrying `err.response['Error']['Code']`. -/
structure ClientError where
  code : String
deriving DecidableEq, Repr

/-- A stored blob: its bytes and its user metadata. -/
structure S3Object where
  data : List ℕ
  metadata : List (String × String)
deriving DecidableEq, Repr

/-- The generator
`next((v for k, v in metadata.items() if k.lower() == 'digest'), None)`. -/
def find_digest_meta (metadata : List (String × String)) : Option String :=
  (metadata.find? (fun kv => str_lower kv.1 = "digest")).map Prod.snd

/-- The body of `upload_if_changed` after the metadata read: the upload
happens (returning `true` and the written object, its metadata carrying
the digest and the truncated revision with dirty marker) unless the
stored digest equals the payload's digest, in which case nothing is
written and `false` is returned. -/
def upload_from_metadata (sha : List ℕ → List ℕ)
    (metadata : List (String × String)) (value : List ℕ)
    (revision_sha : String) (is_dirty : Bool) :
    Except ClientError (Bool × Option S3Object) :=
  let prev_digest := find_digest_meta metadata
  let new_digest := compute_digest sha value
  if prev_digest ≠ some new_digest then
    .ok (true, some ⟨value,
      [("digest", new_digest),
       ("revision", revision_sha.take 9
          ++ (if is_dirty then " (dirty)" else ""))]⟩)
  else .ok (false, none)

/-- `upload_if_changed`, as a function of the `head_object` outcome: a
client error with a code other than `403`/`404` re-raises, a `403`/`404`
leaves the metadata empty (not an error), and the rest is
`upload_from_metadata`. -/
def upload_if_changed (sha : List ℕ → List ℕ)
    (headResult : Except ClientError (List (String × String)))
    (value : List ℕ) (revision_sha : String) (is_dirty : Bool) :
    Except ClientError (Bool × Option S3Object) :=
  match headResult with
  | .error err =>
    if err.code ≠ "403" ∧ err.code ≠ "404" then .error err
    else upload_from_metadata sha [] value revision_sha is_dirty
  | .ok metadata => upload_from_metadata sha metadata value revision_sha is_dirty

/-- Modelled from the spec: the blob store's
`headMetadata(location) → metadata | NotFound | Forbidden`; an absent
object reports error code `404`.  The store is not part of this
repository. -/
def head_object (st : Option S3Object) :
    Except ClientError (List (String × String)) :=
  match st with
  | none => .error ⟨"404"⟩
  | some obj => .ok obj.metadata

/-- One full `publishIfChanged` round against a location currently
holding `st`: head the location, run `upload_if_changed`, and apply the
write (if any) to the location. -/
def publish_step (sha : List ℕ → List ℕ) (st : Option S3Object)
    (value : List ℕ) (revision_sha : String) (is_dirty : Bool) :
    Except ClientError (Bool × Option S3Object) :=
  match upload_if_changed sha (head_object st) value revision_sha is_dirty with
  | .error e => .error e
  | .ok (b, w) => .ok (b, match w with | some obj => some obj | none => st)

/-! ### C5: normalization -/

/-- C5: `normalized` collapses weight `≤ 0` to `SingleVersion(primary)`,
weight `≥ 1` to `SingleVersion(secondary)`, leaves a strictly split alias
unchanged, and is idempotent. -/
theorem normalized_collapse_idempotent (a : Alias) :
    (a.secondary_weight ≤ 0 → a.normalized = singleVersion a.primary_version) ∧
    (1 ≤ a.secondary_weight → a.normalized = singleVersion a.secondary_version) ∧
    (0 < a.secondary_weight → a.secondary_weight < 1 → a.normalized = a) ∧
    a.normalized.normalized = a.normalized := by
  refine ⟨?_, ?_, ?_, ?_⟩
  · intro h
    simp [Alias.normalized, singleVersion, h]
  · intro h
    have h0 : ¬ a.secondary_weight ≤ 0 := by
      intro h0
      exact absurd (le_trans h h0) (by norm_num)
    simp [Alias.normalized, singleVersion, h0, h]
  · intro h1 h2
    simp [Alias.normalized, not_le.mpr h1, not_le.mpr h2]
  · by_cases h0 : a.secondary_weight ≤ 0
    · simp [Alias.normalized, h0]
    · by_cases h1 : 1 ≤ a.secondary_weight
      · simp [Alias.normalized, h0, h1]
      · simp [Alias.normalized, h0, h1]

theorem normalized_collapse_idempotent_witness :
    (Alias.mk (some "7") (some "3") 0).normalized = singleVersion (some "7") ∧
    (Alias.mk (some "7") (some "3") 1).normalized = singleVersion (some "3") ∧
    (Alias.mk (some "7") (some "3") (1/2)).normalized
      = Alias.mk (some "7") (some "3") (1/2) ∧
    ((Alias.mk (some "7") (some "3") (1/2)).normalized).normalized
      = (Alias.mk (some "7") (some "3") (1/2)).normalized :=
  ⟨(normalized_collapse_idempotent _).1 (by norm_num),
   (normalized_collapse_idempotent _).2.1 (by norm_num),
   (normalized_collapse_idempotent _).2.2.1 (by norm_num) (by norm_num),
   (normalized_collapse_idempotent _).2.2.2⟩

/-! ### C4: proposing a routing from selected versions -/

/-- C4: `from_versions` on two versions normalizes
`Alias(versions[0], versions[1], 1 - weightInput)`; weight input `0`
cuts fully over to the second version, weight input `1` keeps the first,
and a single selected version gives `SingleVersion(v)`. -/
theorem from_versions_spec (v1 v2 v : String) (w : ℚ)
    (_h0 : 0 ≤ w) (_h1 : w ≤ 1) :
    Alias.from_versions2 v1 v2 w
      = (Alias.mk (some v1) (some v2) (1 - w)).normalized ∧
    Alias.from_versions2 v1 v2 0 = singleVersion (some v2) ∧
    Alias.from_versions2 v1 v2 1 = singleVersion (some v1) ∧
    Alias.from_versions1 v = singleVersion (some v) := by
  refine ⟨rfl, ?_, ?_, rfl⟩
  · norm_num [Alias.from_versions2, Alias.normalized, singleVersion]
  · norm_num [Alias.from_versions2, Alias.normalized, singleVersion]

theorem from_versions_spec_witness :
    (0:ℚ) ≤ 1/2 ∧ (1:ℚ)/2 ≤ 1 ∧
    Alias.from_versions2 "5" "3" (1/2)
      = (Alias.mk (some "5") (some "3") (1 - 1/2)).normalized ∧
    Alias.from_versions2 "5" "3" 0 = singleVersion (some "3") ∧
    Alias.from_versions2 "5" "3" 1 = singleVersion (some "5") ∧
    Alias.from_versions1 "9" = singleVersion (some "9") :=
  ⟨by norm_num, by norm_num,
   (from_versions_spec "5" "3" "9" (1/2) (by norm_num) (by norm_num)).1,
   (from_versions_spec "5" "3" "9" (1/2) (by norm_num) (by norm_num)).2.1,
   (from_versions_spec "5" "3" "9" (1/2) (by norm_num) (by norm_num)).2.2.1,
   (from_versions_spec "5" "3" "9" (1/2) (by norm_num) (by norm_num)).2.2.2⟩

/-! ### C3: alias equality -/

/-- C3 (amended): the frozen dataclass compares field-by-field, so two
aliases are equal iff primary version, secondary version and secondary
weight all coincide; equal aliases in particular have normalized forms
with identical weight assignments. -/
theorem alias_eq_iff_fields (a b : Alias) :
    (a = b ↔ a.primary_version = b.primary_version ∧
      a.secondary_version = b.secondary_version ∧
      a.secondary_weight = b.secondary_weight) ∧
    (a = b → ∀ v, a.normalized.get_weight v = b.normalized.get_weight v) := by
  constructor
  · constructor
    · rintro rfl
      exact ⟨rfl, rfl, rfl⟩
    · rintro ⟨h1, h2, h3⟩
      cases a; cases b
      simp_all
  · rintro rfl v
    rfl

theorem alias_eq_iff_fields_witness :
    (Alias.mk (some "1") (some "2") (1/2)).normalized.get_weight "2"
      = (Alias.mk (some "1") (some "2") (1/2)).normalized.get_weight "2" :=
  (alias_eq_iff_fields _ _).2 rfl "2"

/-- C3 counterexample: a zero-weight two-version alias normalizes to the
single-version alias yet compares unequal to it, so dataclass equality is
strictly finer than equality of normalized weight assignments. -/
theorem alias_eq_counterexample :
    (Alias.mk (some "1") (some "2") 0).normalized = Alias.mk (some "1") none 0 ∧
    Alias.mk (some "1") (some "2") 0 ≠ Alias.mk (some "1") none 0 := by
  exact ⟨by decide, by decide⟩

/-! ### C8: the weight partition -/

/-- C8 (amended): for distinct defined primary and secondary versions the
two weights sum to `1`; a single-version alias gives its primary weight
`1`; any version outside the alias gets weight `0`. -/
theorem get_weight_partition (a : Alias) :
    (∀ p s, 0 ≤ a.secondary_weight → a.secondary_weight ≤ 1 →
      a.primary_version = some p → a.secondary_version = some s → p ≠ s →
      a.get_weight p + a.get_weight s = 1) ∧
    (∀ p, a.primary_version = some p → a.secondary_version = none →
      a.secondary_weight = 0 → a.get_weight p = 1) ∧
    (∀ v, some v ≠ a.primary_version → some v ≠ a.secondary_version →
      a.get_weight v = 0) := by
  refine ⟨?_, ?_, ?_⟩
  · intro p s _ _ hp hs hps
    simp [Alias.get_weight, hp, hs, hps]
  · intro p hp hs hw
    simp [Alias.get_weight, hp, hs, hw]
  · intro v hp hs
    simp [Alias.get_weight, hp, hs]

theorem get_weight_partition_witness :
    (Alias.mk (some "5") (some "3") (3/10)).get_weight "5"
      + (Alias.mk (some "5") (some "3") (3/10)).get_weight "3" = 1 ∧
    (Alias.mk (some "5") none 0).get_weight "5" = 1 ∧
    (Alias.mk (some "5") (some "3") (3/10)).get_weight "9" = 0 :=
  ⟨(get_weight_partition _).1 "5" "3" (by norm_num) (by norm_num) rfl rfl
      (by decide),
   (get_weight_partition _).2.1 "5" rfl rfl rfl,
   (get_weight_partition _).2.2 "9" (by decide) (by decide)⟩

/-- C8 counterexample: with `primary == secondary` (both defined) and
weight `3/10` in `[0,1]`, both lookups hit the secondary branch and the
sum is `3/5`, not `1`. -/
theorem get_weight_sum_counterexample :
    (0:ℚ) ≤ (Alias.mk (some "1") (some "1") (3/10)).secondary_weight ∧
    (Alias.mk (some "1") (some "1") (3/10)).secondary_weight ≤ 1 ∧
    (Alias.mk (some "1") (some "1") (3/10)).primary_version = some "1" ∧
    (Alias.mk (some "1") (some "1") (3/10)).secondary_version = some "1" ∧
    (Alias.mk (some "1") (some "1") (3/10)).get_weight "1"
      + (Alias.mk (some "1") (some "1") (3/10)).get_weight "1" ≠ 1 := by
  refine ⟨by norm_num, by norm_num, rfl, rfl, ?_⟩
  norm_num [Alias.get_weight]

/-! ### C1: guarded commit, conflict vs fatal failures -/

/-- C1: a stale expected revision id makes the single guarded commit
return the non-fatal conflict outcome (`none`) with the remote record
untouched, while any update failure that is not a precondition failure
mentioning the revision id propagates unchanged as a fatal error. -/
theorem commit_conflict_spec (st : AliasDescription) (proposed : Alias)
    (newRev expRev : String) (e : LambdaError) :
    (expRev ≠ st.revisionId →
      commit_alias st proposed newRev expRev = (st, .ok none)) ∧
    ((∀ msg, e = .preconditionFailed msg →
        str_in "revision id" (str_lower msg) = false) →
      set_alias (.error e) = .error e) := by
  constructor
  · intro h
    have hmsg : str_in "revision id" (str_lower
        "The Revision Id provided does not match the latest Revision Id.")
        = true := by decide
    simp [commit_alias, remote_update_alias, h, set_alias, hmsg]
  · intro h
    cases e with
    | preconditionFailed msg =>
      simp [set_alias, h msg rfl]
    | resourceNotFound => rfl
    | other t => rfl

theorem commit_conflict_spec_witness :
    commit_alias ⟨"1", [], "rev-a"⟩ (Alias.mk (some "2") none 0)
        "rev-b" "rev-stale"
      = (⟨"1", [], "rev-a"⟩, .ok none) ∧
    set_alias (.error (.other "TooManyRequestsException"))
      = .error (.other "TooManyRequestsException") ∧
    set_alias (.error (.preconditionFailed
        "The operation cannot be performed at this time"))
      = .error (.preconditionFailed
        "The operation cannot be performed at this time") :=
  ⟨(commit_conflict_spec ⟨"1", [], "rev-a"⟩ (Alias.mk (some "2") none 0)
      "rev-b" "rev-stale" (.other "x")).1 (by decide),
   (commit_conflict_spec ⟨"1", [], "rev-a"⟩ (Alias.mk (some "2") none 0)
      "rev-b" "rev-stale" (.other "TooManyRequestsException")).2
     (fun msg h => nomatch h),
   (commit_conflict_spec ⟨"1", [], "rev-a"⟩ (Alias.mk (some "2") none 0)
      "rev-b" "rev-stale" (.preconditionFailed
        "The operation cannot be performed at this time")).2
     (by
       intro msg h
       injection h with h'
       subst h'
       decide)⟩

/-! ### C9: version listing -/

/-- C9: `get_versions` never lists `$LATEST`, returns an empty mapping
without failing when only `$LATEST` exists, never fails on a successful
listing, and fails exactly when the remote listing itself fails. -/
theorem get_versions_spec (listing : Except LambdaError (List VersionRec)) :
    (∀ vs r, listing = .ok vs → get_versions listing = .ok r →
      "$LATEST" ∉ r.map Prod.fst) ∧
    (∀ vs, listing = .ok vs → (∀ v ∈ vs, v.version = "$LATEST") →
      get_versions listing = .ok []) ∧
    (∀ vs, listing = .ok vs → ∃ r, get_versions listing = .ok r) ∧
    (∀ e, listing = .error e → get_versions listing = .error e) := by
  refine ⟨?_, ?_, ?_, ?_⟩
  · rintro vs r rfl hr
    simp only [get_versions, Except.ok.injEq] at hr
    subst hr
    simp only [List.map_map, List.mem_map, Function.comp]
    rintro ⟨v, hv, hl⟩
    rw [List.mem_filter] at hv
    exact absurd hl (by simpa using hv.2)
  · rintro vs rfl hall
    simp only [get_versions, Except.ok.injEq]
    have : vs.filter (fun v => v.version ≠ "$LATEST") = [] := by
      rw [List.filter_eq_nil_iff]
      intro v hv
      simp [hall v hv]
    rw [this]
    rfl
  · rintro vs rfl
    exact ⟨_, rfl⟩
  · rintro e rfl
    rfl

theorem get_versions_spec_witness :
    "$LATEST" ∉ ([("1", (⟨"1", "x"⟩ : VersionRec))].map Prod.fst) ∧
    get_versions (.ok [⟨"$LATEST", ""⟩]) = .ok [] ∧
    get_versions (.error .resourceNotFound) = .error .resourceNotFound :=
  ⟨(get_versions_spec (.ok [⟨"$LATEST", ""⟩, ⟨"1", "x"⟩])).1
      [⟨"$LATEST", ""⟩, ⟨"1", "x"⟩] [("1", ⟨"1", "x"⟩)] rfl rfl,
   (get_versions_spec (.ok [⟨"$LATEST", ""⟩])).2.1 [⟨"$LATEST", ""⟩] rfl
     (by decide),
   (get_versions_spec (.error .resourceNotFound)).2.2.2 .resourceNotFound rfl⟩

/-! ### C10: a `$LATEST`-targeting alias is present but unparsed -/

/-- C10: a remote description whose target version is `$LATEST` makes
`get_alias` return a present result pairing `none` (no parsed alias) with
the record's revision id — not the absent outcome. -/
theorem get_alias_latest_present (d : AliasDescription)
    (h : d.functionVersion = "$LATEST") :
    get_alias (.ok d) = .ok (some (none, d.revisionId)) ∧
    get_alias (.ok d) ≠ .ok none := by
  constructor
  · simp [get_alias, Alias.from_description, h]
  · simp [get_alias]

theorem get_alias_latest_present_witness :
    get_alias (.ok ⟨"$LATEST", [], "r-1"⟩) = .ok (some (none, "r-1")) ∧
    get_alias (.ok ⟨"$LATEST", [], "r-1"⟩) ≠ .ok none :=
  get_alias_latest_present ⟨"$LATEST", [], "r-1"⟩ rfl

/-! ### C7: ordering of the selection list -/

theorem keyLE_trans_aux (k1 k2 k3 : ℕ × ℕ) (h1 : keyLE k1 k2 = true)
    (h2 : keyLE k2 k3 = true) : keyLE k1 k3 = true := by
  simp only [keyLE, Bool.or_eq_true, Bool.and_eq_true, decide_eq_true_eq,
    beq_iff_eq] at h1 h2 ⊢
  omega

theorem keyLE_total_aux (k1 k2 : ℕ × ℕ) :
    (keyLE k1 k2 || keyLE k2 k1) = true := by
  simp only [keyLE, Bool.or_eq_true, Bool.and_eq_true, decide_eq_true_eq,
    beq_iff_eq]
  omega

attribute [local semireducible] List.merge List.mergeSort

/-- C7: the selection list is a permutation of the catalog, pairwise
non-increasing in the key `(isInCurrentAlias, numericVersionValue)` — so
every alias-referenced version precedes every other version, and each of
the two groups is in descending numeric order — and on catalog
`{1,2,3,5}` with the alias referencing `{2}` the order is `[2,5,3,1]`. -/
theorem order_for_selection_spec (catalog : List String)
    (av : List (Option String)) :
    (orderForSelection catalog av).Perm catalog ∧
    (orderForSelection catalog av).Pairwise
      (fun a b => keyLE (selection_key av a) (selection_key av b) = true) ∧
    (orderForSelection catalog av).Pairwise
      (fun a b => (some b ∈ av → some a ∈ av) ∧
        ((some a ∈ av ↔ some b ∈ av) → strToNat b.data ≤ strToNat a.data)) ∧
    orderForSelection ["1", "2", "3", "5"] [some "2"] = ["2", "5", "3", "1"] := by
  have hpw : (orderForSelection catalog av).Pairwise
      (fun a b => keyLE (selection_key av a) (selection_key av b) = true) :=
    @List.sorted_mergeSort String
      (fun a b => keyLE (selection_key av a) (selection_key av b))
      (fun _ _ _ => keyLE_trans_aux _ _ _)
      (fun _ _ => keyLE_total_aux _ _) catalog
  refine ⟨List.mergeSort_perm catalog _, hpw, ?_, by decide⟩
  refine hpw.imp ?_
  intro a b h
  simp only [keyLE, selection_key, Bool.or_eq_true, Bool.and_eq_true,
    decide_eq_true_eq, beq_iff_eq] at h
  constructor
  · intro hb
    by_cases ha : some a ∈ av
    · exact ha
    · exfalso
      rw [if_pos hb, if_neg ha] at h
      rcases h with h | ⟨h, _⟩
      · omega
      · omega
  · intro hiff
    by_cases ha : some a ∈ av
    · rw [if_pos ha, if_pos (hiff.mp ha)] at h
      rcases h with h | h
      · exact absurd h (by omega)
      · exact h.2
    · rw [if_neg ha, if_neg (fun hb => ha (hiff.mpr hb))] at h
      rcases h with h | h
      · exact absurd h (by omega)
      · exact h.2

/-! ### C2: conditional publish, read-failure handling -/

/-- C2: a metadata read failing with code `403`/`404` is treated as "no
existing digest" and the call continues exactly as with empty metadata;
any other read failure propagates; on a successful read the call skips
(writing nothing) precisely when the stored digest equals the payload's
digest, and otherwise writes the payload tagged with the new digest and
the provenance revision. -/
theorem upload_if_changed_spec (sha : List ℕ → List ℕ)
    (headResult : Except ClientError (List (String × String)))
    (value : List ℕ) (rev : String) (dirty : Bool) :
    (∀ e, headResult = .error e → (e.code = "403" ∨ e.code = "404") →
      upload_if_changed sha headResult value rev dirty
        = upload_if_changed sha (.ok []) value rev dirty) ∧
    (∀ e, headResult = .error e → e.code ≠ "403" → e.code ≠ "404" →
      upload_if_changed sha headResult value rev dirty = .error e) ∧
    (∀ m, headResult = .ok m →
      ((upload_if_changed sha headResult value rev dirty = .ok (false, none))
        ↔ find_digest_meta m = some (compute_digest sha value)) ∧
      (find_digest_meta m ≠ some (compute_digest sha value) →
        upload_if_changed sha headResult value rev dirty
          = .ok (true, some ⟨value,
              [("digest", compute_digest sha value),
               ("revision", rev.take 9
                  ++ (if dirty then " (dirty)" else ""))]⟩))) := by
  refine ⟨?_, ?_, ?_⟩
  · rintro e rfl hcode
    have h : ¬ (e.code ≠ "403" ∧ e.code ≠ "404") := by
      rcases hcode with h | h <;> simp [h]
    simp [upload_if_changed, h]
  · rintro e rfl h3 h4
    simp [upload_if_changed, h3, h4]
  · rintro m rfl
    constructor
    · by_cases h : find_digest_meta m = some (compute_digest sha value)
      · simp [upload_if_changed, upload_from_metadata, h]
      · simp [upload_if_changed, upload_from_metadata, h]
    · intro h
      simp [upload_if_changed, upload_from_metadata, h]

theorem upload_if_changed_spec_witness :
    upload_if_changed (fun _ => [0]) (.error ⟨"404"⟩) [1] "abc" false
      = upload_if_changed (fun _ => [0]) (.ok []) [1] "abc" false ∧
    upload_if_changed (fun _ => [0]) (.error ⟨"500"⟩) [1] "abc" false
      = .error ⟨"500"⟩ ∧
    (upload_if_changed (fun _ => [0]) (.ok [("other", "x")]) [1] "abc" false
        = .ok (false, none)
      ↔ find_digest_meta [("other", "x")]
        = some (compute_digest (fun _ => [0]) [1])) :=
  ⟨(upload_if_changed_spec (fun _ => [0]) (.error ⟨"404"⟩) [1] "abc" false).1
      ⟨"404"⟩ rfl (Or.inr rfl),
   (upload_if_changed_spec (fun _ => [0]) (.error ⟨"500"⟩) [1] "abc" false).2.1
      ⟨"500"⟩ rfl (by decide) (by decide),
   ((upload_if_changed_spec (fun _ => [0]) (.ok [("other", "x")]) [1] "abc"
      false).2.2 [("other", "x")] rfl).1⟩

/-! ### C6: publish idempotence -/

/-- C6: once a `publish_step` on a location succeeds, a second step with
a byte-identical payload skips (no re-upload) and leaves the location
unchanged, whatever provenance the second run carries; and from an empty
location the first step publishes the payload. -/
theorem publish_twice_spec (sha : List ℕ → List ℕ) (st : Option S3Object)
    (value : List ℕ) (rev rev2 : String) (dirty dirty2 : Bool) :
    (∀ b st2, publish_step sha st value rev dirty = .ok (b, st2) →
      publish_step sha st2 value rev2 dirty2 = .ok (false, st2)) ∧
    (st = none → publish_step sha st value rev dirty
      = .ok (true, some ⟨value,
          [("digest", compute_digest sha value),
           ("revision", rev.take 9
              ++ (if dirty then " (dirty)" else ""))]⟩)) := by
  have hfind : ∀ r : String, find_digest_meta
      [("digest", compute_digest sha value), ("revision", r)]
      = some (compute_digest sha value) := by
    intro r
    simp [find_digest_meta, List.find?, str_lower]
  constructor
  · intro b st2 h
    cases st with
    | none =>
      simp [publish_step, upload_if_changed, head_object,
        upload_from_metadata, find_digest_meta] at h
      rcases h with ⟨hb, hst⟩
      subst hst
      simp [publish_step, upload_if_changed, head_object,
        upload_from_metadata, hfind]
    | some obj =>
      by_cases hd : find_digest_meta obj.metadata
          = some (compute_digest sha value)
      · simp [publish_step, upload_if_changed, head_object,
          upload_from_metadata, hd] at h
        rcases h with ⟨hb, hst⟩
        subst hst
        simp [publish_step, upload_if_changed, head_object,
          upload_from_metadata, hd]
      · simp [publish_step, upload_if_changed, head_object,
          upload_from_metadata, hd] at h
        rcases h with ⟨hb, hst⟩
        subst hst
        simp [publish_step, upload_if_changed, head_object,
          upload_from_metadata, hfind]
  · rintro rfl
    simp [publish_step, upload_if_changed, head_object,
      upload_from_metadata, find_digest_meta]

theorem publish_twice_spec_witness :
    publish_step (fun _ => [0]) none [1] "abc" false
      = .ok (true, some ⟨[1],
          [("digest", compute_digest (fun _ => [0]) [1]),
           ("revision", "abc")]⟩) ∧
    publish_step (fun _ => [0])
        (some ⟨[1], [("digest", compute_digest (fun _ => [0]) [1]),
          ("revision", "abc")]⟩) [1] "def" true
      = .ok (false, some ⟨[1], [("digest", compute_digest (fun _ => [0]) [1]),
          ("revision", "abc")]⟩) := by
  have h1 := (publish_twice_spec (fun _ => [0]) none [1] "abc" "def"
    false true).2 rfl
  have h1' : publish_step (fun _ => [0]) none [1] "abc" false
      = .ok (true, some ⟨[1],
          [("digest", compute_digest (fun _ => [0]) [1]),
           ("revision", "abc")]⟩) := by
    simpa using h1
  exact ⟨h1', (publish_twice_spec (fun _ => [0]) none [1] "abc" "def"
    false true).1 true _ h1'⟩
